import Mathlib

/-!
Verification development for the TFS page-manager core.

The Rust sources embedded here are:

* `src/io/cluster.rs`   — cluster pointers (non-zero 64-bit indices);
* `src/io/state_block.rs` — the state-block codec and the compression-tag decoder;
* `src/io/pages.rs`     — the page manager: freelist push/pop, flushes and
  the cluster packer of `queue_alloc`.

Machine integers are embedded as `Nat` with explicit `% 2 ^ w` where the Rust
code truncates (`as u16`, `u8` shifts, the `u64` return type of the checksum).
Byte buffers are `List Nat` whose elements are byte values; `LittleEndian::read`
and `LittleEndian::write` become `leRead` / `writeAt ∘ leBytes`.

External collaborators (the sector device, the checksum catalogue, the LZ4
codec, `State::load_freelist`) are not part of `src/`; they enter as explicit
parameters of the configuration record `Cfg`, and the sector size is fixed to
512 as in the specification's concrete scenarios.
-/

set_option maxRecDepth 20000

namespace Tfs

/-! ### Little-endian byte buffers -/

/-- Value of a byte list read as a little-endian integer (least significant
byte first).  This is the reading direction of the `LittleEndian::read` calls
in the source. -/
def fromLE : List Nat → Nat
  | [] => 0
  | b :: bs => b + 256 * fromLE bs

/-- The `w` little-endian bytes of the integer `v`; models what
`LittleEndian::write` stores for a `w`-byte integer. -/
def leBytes : Nat → Nat → List Nat
  | 0, _ => []
  | w + 1, v => v % 256 :: leBytes w (v / 256)

/-- Overwrite the bytes of `buf` starting at offset `off` with `bs`; models an
in-place `LittleEndian::write(&mut buf[off..], v)` (together with `leBytes`). -/
def writeAt (buf : List Nat) (off : Nat) (bs : List Nat) : List Nat :=
  buf.take off ++ bs ++ buf.drop (off + bs.length)

/-- Read `w` little-endian bytes of `buf` at offset `off`. -/
def leRead (buf : List Nat) (off w : Nat) : Nat :=
  fromLE ((buf.drop off).take w)

/-- The 64-bit digest of a checksum algorithm: the algorithm itself is an
external collaborator (the `header` module's catalogue), so it is a parameter
`hash`; the `% 2 ^ 64` encodes the `u64` return type of
`ChecksumAlgorithm::hash`. -/
def digest (hash : List Nat → Nat) (l : List Nat) : Nat := hash l % 2 ^ 64

/-! ### Constants

`disk::SECTOR` / `disk::SECTOR_SIZE` live in the external disk collaborator.
Modelled from the spec: the sector size is a fixed power of two, fixed to 512
as in the specification's concrete scenarios.  The remaining constants are the
literal definitions at the top of `src/io/pages.rs` and `src/io/cluster.rs`. -/

/-- Sector size of the underlying device (spec §3, concrete scenarios). -/
def SECTOR_SIZE : Nat := 512

/-- The size (in bytes) of a cluster pointer (`cluster.rs`). -/
def POINTER_SIZE : Nat := 8

/-- The size (in bytes) of the metacluster header (`pages.rs`). -/
def METACLUSTER_HEADER : Nat := 8

/-- The size (in bytes) of the metacluster's non-header section (`pages.rs`). -/
def METACLUSTER_SIZE : Nat := SECTOR_SIZE - METACLUSTER_HEADER

/-- The size (in bytes) of the data cluster header (`pages.rs`). -/
def DATA_CLUSTER_HEADER : Nat := 2

/-- The size (in bytes) of the data cluster's non-header section (`pages.rs`). -/
def DATA_CLUSTER_SIZE : Nat := SECTOR_SIZE - DATA_CLUSTER_HEADER

/-! ### `src/io/state_block.rs` -/

/-- A compression algorithm configuration option. -/
inductive CompressionAlgorithm where
  /-- Identity function / compression disabled. -/
  | Identity
  /-- LZ4 compression. -/
  | Lz4
deriving DecidableEq, Repr

/-- The on-disk tag of a compression algorithm (the `= 0` / `= 1` discriminant
values of the Rust enum). -/
def CompressionAlgorithm.tag : CompressionAlgorithm → Nat
  | .Identity => 0
  | .Lz4 => 1

/-- A state block parsing error (`state_block.rs`). -/
inductive SBError where
  /-- Unknown or implementation-specific compression algorithm. -/
  | UnknownCompressionAlgorithm
  /-- Invalid compression algorithm. -/
  | InvalidCompressionAlgorithm
  /-- The checksums do not match (stored value, recomputed value). -/
  | ChecksumMismatch (expected found : Nat)
deriving DecidableEq, Repr

/-- Model of `impl TryFrom<u16> for CompressionAlgorithm`: `0` and `1` are the known
tags; the guarded range pattern `1 << 15...` maps the top-bit-set range to
`UnknownCompressionAlgorithm`, and the remaining values to
`InvalidCompressionAlgorithm`. -/
def CompressionAlgorithm.try_from (t : Nat) : Except SBError CompressionAlgorithm :=
  if t = 0 then .ok .Identity
  else if t = 1 then .ok .Lz4
  else if 2 ^ 15 ≤ t then .error .UnknownCompressionAlgorithm
  else .error .InvalidCompressionAlgorithm

/-- The TFS state block.  Pointers are embedded as plain `Nat`; a well-formed
cluster pointer is non-zero and below `2 ^ 64` (`cluster.rs` wraps a
`NonZero<u64>`). -/
structure StateBlock where
  compression_algorithm : CompressionAlgorithm
  freelist_head : Nat
  superpage : Nat
deriving DecidableEq, Repr

/-- Model of `StateBlock::encode`: zero-initialise a sector, write the compression tag
(as `u16`) at byte 8, the freelist-head pointer at byte 16, the superpage
pointer at byte 24, then checksum bytes `8..` and store the digest at byte 0. -/
def StateBlock.encode (s : StateBlock) (hash : List Nat → Nat) : List Nat :=
  let buf := List.replicate SECTOR_SIZE 0
  let buf := writeAt buf 8 (leBytes 2 s.compression_algorithm.tag)
  let buf := writeAt buf 16 (leBytes 8 s.freelist_head)
  let buf := writeAt buf 24 (leBytes 8 s.superpage)
  let cksum := digest hash (buf.drop 8)
  writeAt buf 0 (leBytes 8 cksum)

/-- Model of `StateBlock::decode`: compare the stored 8-byte checksum against the digest
of bytes `8..`; on agreement decode the compression tag (bytes `8..10`), the
freelist-head pointer (bytes `16..24`) and the superpage pointer
(bytes `24..32`). -/
def StateBlock.decode (buf : List Nat) (hash : List Nat → Nat) :
    Except SBError StateBlock :=
  let expected := leRead buf 0 8
  let found := digest hash (buf.drop 8)
  if expected ≠ found then
    .error (.ChecksumMismatch expected found)
  else
    match CompressionAlgorithm.try_from (leRead buf 8 2) with
    | .error e => .error e
    | .ok c =>
        .ok { compression_algorithm := c
              freelist_head := leRead buf 16 8
              superpage := leRead buf 24 8 }

/-! ### `src/io/pages.rs` -/

/-- A page management error (`pages.rs`). -/
inductive PError where
  /-- No clusters left in the freelist. -/
  | OutOfClusters
  /-- Mismatching checksums in a cluster. -/
  | ChecksumMismatch (cluster expected found : Nat)
  /-- The compressed data is invalid and cannot be decompressed. -/
  | InvalidCompression (cluster : Nat)
  /-- A disk error. -/
  | Disk
deriving DecidableEq, Repr

deriving instance DecidableEq for Except

/-- The manager's external collaborators and configuration: the checksum
algorithm, the LZ4 codec, the `security` feature flag, the state-block address
held by the outer header, cached sector reads, and `State::load_freelist`
(declared on `State` but not defined in `src/`, hence a parameter). -/
structure Cfg where
  hash : List Nat → Nat
  lz4 : List Nat → List Nat
  security : Bool
  state_block_address : Nat
  disk_read : Nat → List Nat
  load_freelist : List Nat → List Nat

/-- The manager's in-memory state (`State` in `pages.rs`) together with the
write pipeline of the caching disk.  `pipeline` holds the queued
`(cluster, sector)` writes of `self.disk.queue` in enqueue order;
`state_queued` is a separate sink recording the fitting-path
`self.state.queue(..)` call of `queue_alloc`, which does not reach the disk
pipeline (`State` has no queue). -/
structure PM where
  state_block : StateBlock
  freelist : List Nat
  last_cluster : Nat
  last_cluster_data : List Nat
  pipeline : List (Nat × List Nat)
  state_queued : List (Nat × List Nat)
deriving DecidableEq, Repr

/-- Model of `Manager::checksum`: the configured checksum algorithm's digest. -/
def checksum (c : Cfg) (buf : List Nat) : Nat := digest c.hash buf

/-- Model of `Manager::compress`: identity copies the source, LZ4 defers to the
external `lz4_compress` crate. -/
def compress (c : Cfg) (alg : CompressionAlgorithm) (source : List Nat) : List Nat :=
  match alg with
  | .Identity => source
  | .Lz4 => c.lz4 source

/-- Model of `Manager::queue_state_block_flush`: queue a write of the encoded state
block to the header's state-block address. -/
def queue_state_block_flush (c : Cfg) (m : PM) : PM :=
  { m with pipeline :=
      m.pipeline ++ [(c.state_block_address, m.state_block.encode c.hash)] }

/-- The sector built by `Manager::queue_freelist_head_flush`: starting from an
all-zero buffer, each pointer `i` of the freelist is written little-endian at
offset `POINTER_SIZE * i + METACLUSTER_HEADER` (the source indexes by the
pointer value `i`, leaving the enumeration index `n` unused), and the digest of
bytes `2..` of that buffer is then written at offset 0. -/
def metacluster_buf (c : Cfg) (freelist : List Nat) : List Nat :=
  let buf := freelist.foldl
    (fun b i => writeAt b (POINTER_SIZE * i + METACLUSTER_HEADER) (leBytes 8 i))
    (List.replicate SECTOR_SIZE 0)
  writeAt buf 0 (leBytes 8 (checksum c (buf.drop 2)))

/-- Model of `Manager::queue_freelist_head_flush`: queue a write of the freelist-head
sector to the cluster `state_block.freelist_head`. -/
def queue_freelist_head_flush (c : Cfg) (m : PM) : PM :=
  { m with pipeline :=
      m.pipeline ++ [(m.state_block.freelist_head, metacluster_buf c m.freelist)] }

/-- Model of `Manager::queue_freelist_pop`: pop the top (last) pointer of the in-memory
freelist.  If that empties the freelist, the popped pointer is the chain link:
it is swapped with `state_block.freelist_head` (so the old head cluster is the
value returned), the freelist is reloaded from the sector of the new head, and
a state-block flush is queued.  Otherwise a freelist-head flush is queued.  An
empty freelist fails with `OutOfClusters`.  The manager state is returned
alongside the result (the source mutates `&mut self`). -/
def queue_freelist_pop (c : Cfg) (m : PM) : Except PError Nat × PM :=
  match m.freelist.getLast? with
  | some cluster =>
      let rest := m.freelist.dropLast
      if rest.isEmpty then
        let returned := m.state_block.freelist_head
        let m' := { m with
          state_block := { m.state_block with freelist_head := cluster }
          freelist := c.load_freelist (c.disk_read cluster) }
        (.ok returned, queue_state_block_flush c m')
      else
        (.ok cluster, queue_freelist_head_flush c { m with freelist := rest })
  | none => (.error .OutOfClusters, m)

/-- Model of `Manager::queue_freelist_push`: optionally queue a zeroing write
(`security` feature); if the head metacluster is full, clear the in-memory
freelist, link it back to the old head, rotate `freelist_head` to the pushed
cluster and queue a freelist-head flush followed by a state-block flush;
otherwise append the cluster and queue a freelist-head flush. -/
def queue_freelist_push (c : Cfg) (cluster : Nat) (m : PM) : PM :=
  let m :=
    if c.security then
      { m with pipeline := m.pipeline ++ [(cluster, List.replicate SECTOR_SIZE 0)] }
    else m
  if m.freelist.length = METACLUSTER_SIZE / POINTER_SIZE then
    let m := { m with freelist := [m.state_block.freelist_head] }
    let m := { m with state_block := { m.state_block with freelist_head := cluster } }
    queue_state_block_flush c (queue_freelist_head_flush c m)
  else
    queue_freelist_head_flush c { m with freelist := m.freelist ++ [cluster] }

/-- The sector built on the fitting path of `Manager::queue_alloc` from the
header-prefixed compressed buffer `cluster0`: pad with zeros to a full sector,
write the checksum truncated to `u16` little-endian at bytes `0..2`, then
shift byte 1 left by one (a `u8` shift, truncating) and set its low bit. -/
def cluster_fit (c : Cfg) (cluster0 : List Nat) : List Nat :=
  let padded := cluster0 ++ List.replicate (SECTOR_SIZE - cluster0.length) 0
  let d := checksum c (padded.drop DATA_CLUSTER_HEADER) % 2 ^ 16
  let b := writeAt padded 0 (leBytes 2 d)
  b.set 1 ((b.getD 1 0 * 2) % 256 ||| 1)

/-- The buffer built on the non-fitting path of `Manager::queue_alloc`: the
compressed buffer is truncated back to the 2-byte header and extended with the
raw page bytes, the truncated checksum is written at bytes `0..2`, and byte 1
is shifted left with the low (compression) bit left clear.  The source does
not pad this buffer to a full sector. -/
def cluster_no_fit (c : Cfg) (buf : List Nat) : List Nat :=
  let cl := [0, 0] ++ buf
  let d := checksum c (cl.drop DATA_CLUSTER_HEADER) % 2 ^ 16
  let b := writeAt cl 0 (leBytes 2 d)
  b.set 1 ((b.getD 1 0 * 2) % 256)

/-- Model of `Manager::queue_alloc`: extend `last_cluster_data` with the page, compress
it behind a 2-byte header.  Fitting case: build the sector with `cluster_fit`
and pass it to `self.state.queue` (recorded in the `state_queued` sink — this
call does not reach the disk pipeline).  Non-fitting case: reset
`last_cluster_data` to the page, pop a fresh cluster (propagating errors), make
it the new `last_cluster` and queue the raw buffer on the disk pipeline.  The
source's success value is `()` on both paths despite the declared
`Result<Pointer, Error>`, embedded here as `Except.ok none`. -/
def queue_alloc (c : Cfg) (buf : List Nat) (m : PM) :
    Except PError (Option Nat) × PM :=
  let s := m.last_cluster_data ++ buf
  let cluster0 := [0, 0] ++ compress c m.state_block.compression_algorithm s
  if cluster0.length ≤ SECTOR_SIZE then
    (.ok none,
     { m with
        last_cluster_data := s
        state_queued := m.state_queued ++ [(m.last_cluster, cluster_fit c cluster0)] })
  else
    let m1 := { m with last_cluster_data := buf }
    match queue_freelist_pop c m1 with
    | (.error e, m2) => (.error e, m2)
    | (.ok p, m2) =>
        (.ok none,
         { m2 with
            last_cluster := p
            pipeline := m2.pipeline ++ [(p, cluster_no_fit c buf)] })

/-- Push every pointer of `ps` in order (`N` consecutive `queue_freelist_push`
calls). -/
def push_all (c : Cfg) (ps : List Nat) (m : PM) : PM :=
  ps.foldl (fun m p => queue_freelist_push c p m) m

/-- Perform `n` consecutive `queue_freelist_pop` calls, collecting the
results in call order. -/
def pop_seq (c : Cfg) : Nat → PM → List (Except PError Nat) × PM
  | 0, m => ([], m)
  | n + 1, m =>
      let r := queue_freelist_pop c m
      let rest := pop_seq c n r.2
      (r.1 :: rest.1, rest.2)

/-! ### Concrete instances used to exercise the theorems -/

/-- The constant-zero checksum (a degenerate checksum algorithm). -/
def hash0 : List Nat → Nat := fun _ => 0

/-- Byte-sum checksum (distinguishes the concrete single-byte mutations used
below). -/
def hashSum : List Nat → Nat := fun l => l.foldl (· + ·) 0

/-- Buffer-length checksum (distinguishes the checksum ranges `2..` and
`8..`). -/
def hashLen : List Nat → Nat := fun l => l.length

/-- A concrete configuration: identity LZ4 stand-in, security off, zeroed
disk. -/
def cfg0 : Cfg :=
  { hash := hash0, lz4 := fun l => l, security := false, state_block_address := 0,
    disk_read := fun _ => List.replicate SECTOR_SIZE 0, load_freelist := fun _ => [] }

/-- Same configuration with the buffer-length checksum. -/
def cfgLen : Cfg :=
  { cfg0 with hash := hashLen }

/-- The state block of spec scenario S1. -/
def sb0 : StateBlock :=
  { compression_algorithm := .Identity, freelist_head := 1, superpage := 2 }

/-- A manager with freelist `[2]` and an empty packing buffer. -/
def pm_alloc : PM :=
  { state_block := { compression_algorithm := .Identity, freelist_head := 5, superpage := 0 },
    freelist := [2], last_cluster := 4, last_cluster_data := [],
    pipeline := [], state_queued := [] }

/-- A manager with freelist `[3, 4]`. -/
def pm34 : PM :=
  { pm_alloc with freelist := [3, 4] }

/-- A manager with the one-element freelist `[4]` and head pointer 9. -/
def pm_single : PM :=
  { pm_alloc with
      state_block := { compression_algorithm := .Identity, freelist_head := 9, superpage := 0 },
      freelist := [4] }

/-- A manager whose head metacluster mirror is full (63 pointers). -/
def pm_full : PM :=
  { pm_single with freelist := List.replicate 63 5 }

/-- A manager with the nonempty freelist `[1]` and head pointer 9. -/
def pm_push : PM :=
  { pm_single with freelist := [1] }

/-- A manager with an empty in-memory freelist and head pointer 5. -/
def pm_empty : PM :=
  { pm_alloc with freelist := [] }

/-- A manager with freelist `[3]` (for the head-flush layout). -/
def pm_meta : PM :=
  { pm_alloc with freelist := [3] }

/-! ### Byte-level lemmas -/

theorem leBytes_length (w v : Nat) : (leBytes w v).length = w := by
  induction w generalizing v with
  | zero => simp [leBytes]
  | succ n ih => simp [leBytes, ih]

theorem fromLE_leBytes (w v : Nat) : fromLE (leBytes w v) = v % 256 ^ w := by
  induction w generalizing v with
  | zero => simp [leBytes, fromLE, Nat.mod_one]
  | succ n ih =>
      have hp : (256 : Nat) ^ (n + 1) = 256 * 256 ^ n := by ring
      simp [leBytes, fromLE, ih, hp, Nat.mod_mul]

theorem take_set_of_le (l : List Nat) (k v n : Nat) (h : n ≤ k) :
    (l.set k v).take n = l.take n := by
  induction l generalizing k n with
  | nil => simp
  | cons a t ih =>
      cases k with
      | zero => cases n with | zero => simp | succ m => omega
      | succ k' =>
          cases n with
          | zero => simp
          | succ m => simp [List.set, List.take, ih k' m (by omega)]

theorem writeAt_mid (p q r bs : List Nat) (off : Nat)
    (hp : p.length = off) (hq : q.length = bs.length) :
    writeAt (p ++ (q ++ r)) off bs = p ++ (bs ++ r) := by
  unfold writeAt
  rw [List.take_left' hp]
  have hdrop : (p ++ (q ++ r)).drop (off + bs.length) = r := by
    rw [← List.append_assoc]
    exact List.drop_left' (by simp [hp, hq])
  rw [hdrop, List.append_assoc]

theorem leRead_here (lw l2 : List Nat) (w : Nat) (hw : lw.length = w) :
    leRead (lw ++ l2) 0 w = fromLE lw := by
  unfold leRead
  rw [List.drop_zero, List.take_left' hw]

theorem leRead_exact (l1 lw l2 : List Nat) (off w : Nat)
    (h1 : l1.length = off) (hw : lw.length = w) :
    leRead (l1 ++ (lw ++ l2)) off w = fromLE lw := by
  unfold leRead
  rw [List.drop_left' h1, List.take_left' hw]

/-! ### State-block codec lemmas -/

/-- The non-checksum part (bytes `8..`) of an encoded state block. -/
def sb_body (s : StateBlock) : List Nat :=
  leBytes 2 s.compression_algorithm.tag ++
    (List.replicate 6 0 ++
      (leBytes 8 s.freelist_head ++ (leBytes 8 s.superpage ++ List.replicate 480 0)))

theorem encode_eq (s : StateBlock) (hash : List Nat → Nat) :
    s.encode hash = leBytes 8 (digest hash (sb_body s)) ++ sb_body s := by
  simp only [StateBlock.encode]
  have e0 : List.replicate SECTOR_SIZE (0 : Nat) =
      List.replicate 8 0 ++ (List.replicate 2 0 ++ List.replicate 502 0) := by
    simp [SECTOR_SIZE, ← List.replicate_add]
  rw [e0, writeAt_mid _ _ _ _ _ (by simp) (by simp [leBytes_length])]
  have e1 : List.replicate 8 (0 : Nat) ++ (leBytes 2 s.compression_algorithm.tag ++ List.replicate 502 0) =
      (List.replicate 8 0 ++ leBytes 2 s.compression_algorithm.tag ++ List.replicate 6 0) ++
        (List.replicate 8 0 ++ List.replicate 488 0) := by
    simp [List.append_assoc, ← List.replicate_add]
  rw [e1, writeAt_mid _ _ _ _ _ (by simp [leBytes_length]) (by simp [leBytes_length])]
  have e2 : (List.replicate 8 (0 : Nat) ++ leBytes 2 s.compression_algorithm.tag ++ List.replicate 6 0) ++
        (leBytes 8 s.freelist_head ++ List.replicate 488 0) =
      ((List.replicate 8 0 ++ leBytes 2 s.compression_algorithm.tag ++ List.replicate 6 0) ++
          leBytes 8 s.freelist_head) ++
        (List.replicate 8 0 ++ List.replicate 480 0) := by
    simp [List.append_assoc, ← List.replicate_add]
  rw [e2, writeAt_mid _ _ _ _ _ (by simp [leBytes_length]) (by simp [leBytes_length])]
  have e3 : ((List.replicate 8 (0 : Nat) ++ leBytes 2 s.compression_algorithm.tag ++ List.replicate 6 0) ++
          leBytes 8 s.freelist_head) ++
        (leBytes 8 s.superpage ++ List.replicate 480 0) =
      List.replicate 8 0 ++ sb_body s := by
    simp [sb_body, List.append_assoc]
  rw [e3]
  have e4 : (List.replicate 8 (0 : Nat) ++ sb_body s).drop 8 = sb_body s :=
    List.drop_left' (by simp)
  rw [e4]
  have e5 := writeAt_mid ([] : List Nat) (List.replicate 8 0) (sb_body s)
    (leBytes 8 (digest hash (sb_body s))) 0 (by simp) (by simp [leBytes_length])
  simpa using e5

theorem encode_drop8 (s : StateBlock) (hash : List Nat → Nat) :
    (s.encode hash).drop 8 = sb_body s := by
  rw [encode_eq]
  exact List.drop_left' (leBytes_length 8 _)

theorem encode_stored (s : StateBlock) (hash : List Nat → Nat) :
    leRead (s.encode hash) 0 8 = digest hash ((s.encode hash).drop 8) := by
  rw [encode_eq, leRead_here _ _ _ (leBytes_length 8 _), fromLE_leBytes,
    List.drop_left' (leBytes_length 8 _)]
  have hlt : digest hash (sb_body s) < 256 ^ 8 := by
    have : (256 : Nat) ^ 8 = 2 ^ 64 := by norm_num
    rw [this]
    exact Nat.mod_lt _ (by norm_num)
  exact Nat.mod_eq_of_lt hlt

theorem decode_mismatch (buf : List Nat) (hash : List Nat → Nat)
    (h : leRead buf 0 8 ≠ digest hash (buf.drop 8)) :
    StateBlock.decode buf hash =
      .error (.ChecksumMismatch (leRead buf 0 8) (digest hash (buf.drop 8))) := by
  simp [StateBlock.decode, h]

theorem try_from_no_mismatch (t e f : Nat) :
    CompressionAlgorithm.try_from t ≠ .error (.ChecksumMismatch e f) := by
  unfold CompressionAlgorithm.try_from
  split_ifs <;> simp

theorem encode_read_tag (s : StateBlock) (hash : List Nat → Nat) :
    leRead (s.encode hash) 8 2 = s.compression_algorithm.tag := by
  rw [encode_eq]
  have h := leRead_exact (leBytes 8 (digest hash (sb_body s)))
    (leBytes 2 s.compression_algorithm.tag)
    (List.replicate 6 0 ++
      (leBytes 8 s.freelist_head ++ (leBytes 8 s.superpage ++ List.replicate 480 0)))
    8 2 (leBytes_length 8 _) (leBytes_length 2 _)
  have hb : s.compression_algorithm.tag < 256 ^ 2 := by
    cases s.compression_algorithm <;> norm_num [CompressionAlgorithm.tag]
  calc leRead (leBytes 8 (digest hash (sb_body s)) ++ sb_body s) 8 2
      = fromLE (leBytes 2 s.compression_algorithm.tag) := h
    _ = s.compression_algorithm.tag % 256 ^ 2 := fromLE_leBytes 2 _
    _ = s.compression_algorithm.tag := Nat.mod_eq_of_lt hb

theorem encode_read_fh (s : StateBlock) (hash : List Nat → Nat)
    (h : s.freelist_head < 2 ^ 64) :
    leRead (s.encode hash) 16 8 = s.freelist_head := by
  rw [encode_eq]
  have hshape : leBytes 8 (digest hash (sb_body s)) ++ sb_body s =
      (leBytes 8 (digest hash (sb_body s)) ++
          (leBytes 2 s.compression_algorithm.tag ++ List.replicate 6 0)) ++
        (leBytes 8 s.freelist_head ++ (leBytes 8 s.superpage ++ List.replicate 480 0)) := by
    simp [sb_body, List.append_assoc]
  rw [hshape,
    leRead_exact _ _ _ _ _ (by simp [leBytes_length]) (leBytes_length 8 _),
    fromLE_leBytes]
  have he : (256 : Nat) ^ 8 = 2 ^ 64 := by norm_num
  rw [he]
  exact Nat.mod_eq_of_lt h

theorem encode_read_sp (s : StateBlock) (hash : List Nat → Nat)
    (h : s.superpage < 2 ^ 64) :
    leRead (s.encode hash) 24 8 = s.superpage := by
  rw [encode_eq]
  have hshape : leBytes 8 (digest hash (sb_body s)) ++ sb_body s =
      (leBytes 8 (digest hash (sb_body s)) ++
          (leBytes 2 s.compression_algorithm.tag ++
            (List.replicate 6 0 ++ leBytes 8 s.freelist_head))) ++
        (leBytes 8 s.superpage ++ List.replicate 480 0) := by
    simp [sb_body, List.append_assoc]
  rw [hshape,
    leRead_exact _ _ _ _ _ (by simp [leBytes_length]) (leBytes_length 8 _),
    fromLE_leBytes]
  have he : (256 : Nat) ^ 8 = 2 ^ 64 := by norm_num
  rw [he]
  exact Nat.mod_eq_of_lt h

/-! ### Claim theorems -/

/-- C3: for every well-formed state block `s` (known compression tag by
construction of the enum, valid non-zero pointers below `2 ^ 64`), decoding the
sector produced by encoding `s` under the same checksum algorithm succeeds and
yields `s` itself. -/
theorem state_block_roundtrip (hash : List Nat → Nat) (s : StateBlock)
    (_h1 : 0 < s.freelist_head) (h2 : s.freelist_head < 2 ^ 64)
    (_h3 : 0 < s.superpage) (h4 : s.superpage < 2 ^ 64) :
    StateBlock.decode (s.encode hash) hash = .ok s := by
  have hcond := encode_stored s hash
  have htag := encode_read_tag s hash
  have hfh := encode_read_fh s hash h2
  have hsp := encode_read_sp s hash h4
  have htf : CompressionAlgorithm.try_from s.compression_algorithm.tag =
      .ok s.compression_algorithm := by
    cases s.compression_algorithm <;> rfl
  simp only [StateBlock.decode, hcond, htag, hfh, hsp, htf]
  simp

/-- Witness for C3 at the concrete state block of spec scenario S1 under the
byte-sum checksum. -/
theorem state_block_roundtrip_witness :
    0 < sb0.freelist_head ∧ sb0.freelist_head < 2 ^ 64 ∧
    0 < sb0.superpage ∧ sb0.superpage < 2 ^ 64 ∧
    StateBlock.decode (sb0.encode hashSum) hashSum = .ok sb0 :=
  ⟨by decide, by decide, by decide, by decide,
    state_block_roundtrip hashSum sb0 (by decide) (by decide) (by decide) (by decide)⟩

/-- C7: a 16-bit compression tag decodes to Identity at 0, to LZ4 at 1, to the
error `UnknownCompressionAlgorithm` when the top bit is set (`2 ^ 15 ≤ t`),
and to the error `InvalidCompressionAlgorithm` at every other value. -/
theorem compression_tag_decode (t : Nat) (ht : t < 2 ^ 16) :
    (t = 0 → CompressionAlgorithm.try_from t = .ok .Identity) ∧
    (t = 1 → CompressionAlgorithm.try_from t = .ok .Lz4) ∧
    (2 ^ 15 ≤ t → CompressionAlgorithm.try_from t = .error .UnknownCompressionAlgorithm) ∧
    (t ≠ 0 → t ≠ 1 → t < 2 ^ 15 →
      CompressionAlgorithm.try_from t = .error .InvalidCompressionAlgorithm) := by
  have h15 : (2 : Nat) ^ 15 = 32768 := by norm_num
  refine ⟨fun h0 => ?_, fun h1 => ?_, fun hu => ?_, fun h0 h1 hi => ?_⟩ <;>
    unfold CompressionAlgorithm.try_from <;>
    rw [h15] at * <;> split_ifs <;> first | rfl | omega

/-- Witness for C7 at the reserved-range tag 40000. -/
theorem compression_tag_decode_witness :
    (40000 : Nat) < 2 ^ 16 ∧
    (((40000 : Nat) = 0 → CompressionAlgorithm.try_from 40000 = .ok .Identity) ∧
     ((40000 : Nat) = 1 → CompressionAlgorithm.try_from 40000 = .ok .Lz4) ∧
     (2 ^ 15 ≤ (40000 : Nat) →
       CompressionAlgorithm.try_from 40000 = .error .UnknownCompressionAlgorithm) ∧
     ((40000 : Nat) ≠ 0 → (40000 : Nat) ≠ 1 → (40000 : Nat) < 2 ^ 15 →
       CompressionAlgorithm.try_from 40000 = .error .InvalidCompressionAlgorithm)) :=
  ⟨by norm_num, compression_tag_decode 40000 (by norm_num)⟩

/-- C8: `StateBlock::decode` returns `ChecksumMismatch` carrying exactly the
stored checksum (bytes `0..8`) and the recomputed digest (over bytes
`8..SECTOR`) precisely when those two values differ; consequently, mutating any
byte of an encoded state block outside the checksum prefix makes `decode`
return `ChecksumMismatch` whenever the configured checksum distinguishes the
mutated payload. -/
theorem decode_checksum_mismatch (hash : List Nat → Nat) :
    (∀ buf e f, StateBlock.decode buf hash = .error (.ChecksumMismatch e f) ↔
        e = leRead buf 0 8 ∧ f = digest hash (buf.drop 8) ∧ e ≠ f) ∧
    (∀ (s : StateBlock) (k v : Nat), 8 ≤ k → k < SECTOR_SIZE →
      digest hash (((s.encode hash).set k v).drop 8) ≠
        digest hash ((s.encode hash).drop 8) →
      StateBlock.decode ((s.encode hash).set k v) hash =
        .error (.ChecksumMismatch (digest hash ((s.encode hash).drop 8))
          (digest hash (((s.encode hash).set k v).drop 8)))) := by
  constructor
  · intro buf e f
    constructor
    · intro h
      by_cases hc : leRead buf 0 8 ≠ digest hash (buf.drop 8)
      · rw [decode_mismatch buf hash hc] at h
        simp only [Except.error.injEq, SBError.ChecksumMismatch.injEq] at h
        obtain ⟨he, hf⟩ := h
        subst he
        subst hf
        exact ⟨rfl, rfl, hc⟩
      · exfalso
        push_neg at hc
        simp only [StateBlock.decode] at h
        rw [if_neg (by simp [hc])] at h
        cases htf : CompressionAlgorithm.try_from (leRead buf 8 2) with
        | error e' =>
            rw [htf] at h
            simp only [Except.error.injEq] at h
            exact try_from_no_mismatch _ e f (by rw [htf, h])
        | ok c =>
            rw [htf] at h
            simp at h
    · rintro ⟨he, hf, hne⟩
      subst he
      subst hf
      exact decode_mismatch buf hash hne
  · intro s k v hk _ hd
    have hstored : leRead ((s.encode hash).set k v) 0 8 = leRead (s.encode hash) 0 8 := by
      unfold leRead
      rw [List.drop_zero, List.drop_zero, take_set_of_le _ _ _ _ hk]
    have hmut : leRead ((s.encode hash).set k v) 0 8 =
        digest hash ((s.encode hash).drop 8) := by
      rw [hstored, encode_stored]
    have hcond : leRead ((s.encode hash).set k v) 0 8 ≠
        digest hash (((s.encode hash).set k v).drop 8) := by
      rw [hmut]
      exact fun hcon => hd hcon.symm
    rw [decode_mismatch _ hash hcond, hmut]

/-- Witness for C8: flipping byte 16 of the S1 state block encoded under the
byte-sum checksum is detected. -/
theorem decode_checksum_mismatch_witness :
    (8 : Nat) ≤ 16 ∧ (16 : Nat) < SECTOR_SIZE ∧
    digest hashSum (((sb0.encode hashSum).set 16 3).drop 8) ≠
      digest hashSum ((sb0.encode hashSum).drop 8) ∧
    StateBlock.decode ((sb0.encode hashSum).set 16 3) hashSum =
      .error (.ChecksumMismatch (digest hashSum ((sb0.encode hashSum).drop 8))
        (digest hashSum (((sb0.encode hashSum).set 16 3).drop 8))) :=
  ⟨by norm_num, by norm_num [SECTOR_SIZE],
    by decide,
    (decode_checksum_mismatch hashSum).2 sb0 16 3 (by norm_num)
      (by norm_num [SECTOR_SIZE]) (by decide)⟩

/-- C4: `queue_freelist_pop` fails with `OutOfClusters` exactly when the
in-memory freelist is empty (in this representation the chain link is an
element of the freelist, so an empty mirror means no chained metacluster
either).  A pop that leaves the mirror nonempty returns the popped (top)
pointer and queues a freelist-head flush; a pop that empties the mirror
returns the old `freelist_head` cluster itself, installs the popped pointer as
the new `freelist_head`, reloads the mirror from that cluster's sector, and
queues a state-block flush. -/
theorem freelist_pop_characterisation (c : Cfg) (m : PM) :
    ((queue_freelist_pop c m).1 = .error .OutOfClusters ↔ m.freelist = []) ∧
    (∀ rest x, m.freelist = rest ++ [x] → rest ≠ [] →
      (queue_freelist_pop c m).1 = .ok x ∧
      (queue_freelist_pop c m).2.freelist = rest ∧
      (queue_freelist_pop c m).2.state_block = m.state_block ∧
      (queue_freelist_pop c m).2.pipeline =
        m.pipeline ++ [(m.state_block.freelist_head, metacluster_buf c rest)]) ∧
    (∀ x, m.freelist = [x] →
      (queue_freelist_pop c m).1 = .ok m.state_block.freelist_head ∧
      (queue_freelist_pop c m).2.state_block =
        { m.state_block with freelist_head := x } ∧
      (queue_freelist_pop c m).2.freelist = c.load_freelist (c.disk_read x) ∧
      (queue_freelist_pop c m).2.pipeline =
        m.pipeline ++ [(c.state_block_address,
          StateBlock.encode { m.state_block with freelist_head := x } c.hash)]) := by
  refine ⟨?_, ?_, ?_⟩
  · rcases hl : m.freelist.getLast? with _ | x
    · have : m.freelist = [] := List.getLast?_eq_none_iff.mp hl
      simp [queue_freelist_pop, hl, this]
    · have hne : m.freelist ≠ [] := by
        intro h
        rw [h] at hl
        simp at hl
      constructor
      · intro habs
        exfalso
        unfold queue_freelist_pop at habs
        rw [hl] at habs
        split at habs
        · by_cases hr : m.freelist.dropLast.isEmpty = true <;> simp [hr] at habs
        · simp_all
      · intro h
        exact absurd h hne
  · intro rest x hfl hrest
    have hg : m.freelist.getLast? = some x := by
      rw [hfl]
      exact List.getLast?_concat _
    have hd : m.freelist.dropLast = rest := by
      rw [hfl]
      exact List.dropLast_concat ..
    simp [queue_freelist_pop, hg, hd, hrest, queue_freelist_head_flush]
  · intro x hfl
    have hg : m.freelist.getLast? = some x := by
      rw [hfl]
      exact List.getLast?_concat []
    have hd : m.freelist.dropLast = [] := by
      rw [hfl]
      rfl
    simp [queue_freelist_pop, hg, hd, queue_state_block_flush]

/-- Witness for C4: popping from the freelist `[3, 4]` returns 4, leaves
`[3]`, preserves the state block and queues one freelist-head flush. -/
theorem freelist_pop_characterisation_witness :
    (queue_freelist_pop cfg0 pm34).1 = .ok 4 ∧
    (queue_freelist_pop cfg0 pm34).2.freelist = [3] ∧
    (queue_freelist_pop cfg0 pm34).2.state_block = pm34.state_block ∧
    (queue_freelist_pop cfg0 pm34).2.pipeline =
      pm34.pipeline ++ [(pm34.state_block.freelist_head, metacluster_buf cfg0 [3])] :=
  (freelist_pop_characterisation cfg0 pm34).2.1 [3] 4 rfl (by decide)

/-- C10: whenever `queue_freelist_pop` fails with `OutOfClusters`, the manager
state — freelist, state block, packing state and both write queues — is
returned exactly as it was before the call. -/
theorem pop_out_of_clusters_unchanged (c : Cfg) (m : PM)
    (h : (queue_freelist_pop c m).1 = .error .OutOfClusters) :
    queue_freelist_pop c m = (.error .OutOfClusters, m) := by
  rcases hl : m.freelist.getLast? with _ | x
  · simp [queue_freelist_pop, hl]
  · exfalso
    unfold queue_freelist_pop at h
    rw [hl] at h
    split at h
    · by_cases hr : m.freelist.dropLast.isEmpty = true <;> simp [hr] at h
    · simp_all

/-- Witness for C10 on a manager with an empty freelist. -/
theorem pop_out_of_clusters_unchanged_witness :
    queue_freelist_pop cfg0 pm_empty = (.error .OutOfClusters, pm_empty) :=
  pop_out_of_clusters_unchanged cfg0 pm_empty (by decide)

/-- C2: pushing onto a full in-memory freelist (63 pointers, the metacluster
capacity) rotates the head: afterwards the in-memory freelist holds exactly
the previous `freelist_head`, the state block's head is the pushed cluster,
and the pipeline gains the new head-metacluster write strictly before the
state-block write (after the optional security zeroing write). -/
theorem freelist_push_full_rotation (c : Cfg) (p : Nat) (m : PM)
    (hfull : m.freelist.length = METACLUSTER_SIZE / POINTER_SIZE) :
    (queue_freelist_push c p m).freelist = [m.state_block.freelist_head] ∧
    (queue_freelist_push c p m).state_block =
      { m.state_block with freelist_head := p } ∧
    (queue_freelist_push c p m).pipeline =
      m.pipeline ++
        (if c.security then [(p, List.replicate SECTOR_SIZE 0)] else []) ++
        [(p, metacluster_buf c [m.state_block.freelist_head]),
         (c.state_block_address,
           StateBlock.encode { m.state_block with freelist_head := p } c.hash)] := by
  unfold queue_freelist_push
  cases hs : c.security <;>
    simp [hs, hfull, queue_freelist_head_flush, queue_state_block_flush]

/-- Witness for C2 on a full freelist of 63 pointers. -/
theorem freelist_push_full_rotation_witness :
    pm_full.freelist.length = METACLUSTER_SIZE / POINTER_SIZE ∧
    ((queue_freelist_push cfg0 7 pm_full).freelist = [pm_full.state_block.freelist_head] ∧
     (queue_freelist_push cfg0 7 pm_full).state_block =
       { pm_full.state_block with freelist_head := 7 } ∧
     (queue_freelist_push cfg0 7 pm_full).pipeline =
       pm_full.pipeline ++
         (if cfg0.security then [(7, List.replicate SECTOR_SIZE 0)] else []) ++
         [(7, metacluster_buf cfg0 [pm_full.state_block.freelist_head]),
          (cfg0.state_block_address,
            StateBlock.encode { pm_full.state_block with freelist_head := 7 } cfg0.hash)]) :=
  ⟨by decide, freelist_push_full_rotation cfg0 7 pm_full (by decide)⟩

/-! ### Freelist balance (pushes followed by pops) -/

theorem push_keeps_under_capacity (c : Cfg) (p : Nat) (m : PM)
    (h : m.freelist.length < METACLUSTER_SIZE / POINTER_SIZE) :
    (queue_freelist_push c p m).freelist = m.freelist ++ [p] := by
  have hne : m.freelist.length ≠ METACLUSTER_SIZE / POINTER_SIZE := Nat.ne_of_lt h
  unfold queue_freelist_push
  cases hs : c.security <;> simp [hs, hne, queue_freelist_head_flush]

theorem push_all_freelist (c : Cfg) :
    ∀ (ps : List Nat) (m : PM),
      m.freelist.length + ps.length ≤ METACLUSTER_SIZE / POINTER_SIZE →
      (push_all c ps m).freelist = m.freelist ++ ps := by
  intro ps
  induction ps with
  | nil =>
      intro m _
      simp [push_all]
  | cons p ps ih =>
      intro m h
      simp only [List.length_cons] at h
      have h1 : m.freelist.length < METACLUSTER_SIZE / POINTER_SIZE := by omega
      have h2 := push_keeps_under_capacity c p m h1
      have h3 := ih (queue_freelist_push c p m)
        (by rw [h2]; simp only [List.length_append, List.length_cons, List.length_nil]; omega)
      calc (push_all c (p :: ps) m).freelist
          = (push_all c ps (queue_freelist_push c p m)).freelist := rfl
        _ = (queue_freelist_push c p m).freelist ++ ps := h3
        _ = m.freelist ++ p :: ps := by rw [h2]; simp

theorem pop_seq_reversed (c : Cfg) :
    ∀ (rs fl0 : List Nat) (m : PM), fl0 ≠ [] → m.freelist = fl0 ++ rs.reverse →
      (pop_seq c rs.length m).1 = rs.map Except.ok ∧
      (pop_seq c rs.length m).2.freelist = fl0 := by
  intro rs
  induction rs with
  | nil =>
      intro fl0 m _ hm
      constructor
      · simp [pop_seq]
      · simp only [List.length_nil, pop_seq]
        simpa using hm
  | cons a rs ih =>
      intro fl0 m hfl hm
      obtain ⟨f0, fl0', rfl⟩ : ∃ y ys, fl0 = y :: ys := by
        cases fl0 with
        | nil => exact absurd rfl hfl
        | cons y ys => exact ⟨y, ys, rfl⟩
      have hfl2 : m.freelist = ((f0 :: fl0') ++ rs.reverse) ++ [a] := by
        rw [hm]
        simp
      have hg : m.freelist.getLast? = some a := by
        rw [hfl2]
        exact List.getLast?_concat _
      have hd : m.freelist.dropLast = (f0 :: fl0') ++ rs.reverse := by
        rw [hfl2]
        exact List.dropLast_concat ..
      have hpop : queue_freelist_pop c m =
          (.ok a, queue_freelist_head_flush c
            { m with freelist := (f0 :: fl0') ++ rs.reverse }) := by
        simp [queue_freelist_pop, hg, hd]
      have hstep : pop_seq c (a :: rs).length m =
          ((Except.ok a) ::
            (pop_seq c rs.length (queue_freelist_head_flush c
              { m with freelist := (f0 :: fl0') ++ rs.reverse })).1,
           (pop_seq c rs.length (queue_freelist_head_flush c
              { m with freelist := (f0 :: fl0') ++ rs.reverse })).2) := by
        simp [pop_seq, hpop]
      obtain ⟨ih1, ih2⟩ := ih (f0 :: fl0')
        (queue_freelist_head_flush c { m with freelist := (f0 :: fl0') ++ rs.reverse })
        (by simp) (by simp [queue_freelist_head_flush])
      refine ⟨?_, ?_⟩
      · rw [hstep, List.map_cons]
        exact congrArg (Except.ok a :: ·) ih1
      · rw [hstep]
        exact ih2

/-- C9 (amended): from an initial state whose in-memory freelist is *nonempty*
and has room for all pushed pointers, `N` pushes of distinct pointers followed
by `N` pops return exactly the pushed pointers in reverse (LIFO) order and
restore the in-memory freelist (hence its length).  The nonemptiness condition
is forced by the source: a pop that empties the freelist reinterprets the
popped value as the chain link and returns the old head instead. -/
theorem freelist_balance (c : Cfg) (ps : List Nat) (m : PM)
    (hne : m.freelist ≠ []) (_hnd : ps.Nodup)
    (hcap : m.freelist.length + ps.length ≤ METACLUSTER_SIZE / POINTER_SIZE) :
    (pop_seq c ps.length (push_all c ps m)).1 = ps.reverse.map Except.ok ∧
    (pop_seq c ps.length (push_all c ps m)).2.freelist = m.freelist := by
  have hp := push_all_freelist c ps m hcap
  have h := pop_seq_reversed c ps.reverse m.freelist (push_all c ps m) hne
    (by rw [hp]; simp)
  rw [List.length_reverse] at h
  exact h

/-- C9 counterexample: from an *empty* initial freelist (which has the most
head capacity) with head pointer 5, pushing 7 and then popping returns the old
head 5, not the pushed pointer 7 — the claim fails as stated. -/
theorem freelist_balance_counterexample :
    pm_empty.freelist.length + [7].length ≤ METACLUSTER_SIZE / POINTER_SIZE ∧
    ([7] : List Nat).Nodup ∧
    (pop_seq cfg0 [7].length (push_all cfg0 [7] pm_empty)).1 = [.ok 5] ∧
    (pop_seq cfg0 [7].length (push_all cfg0 [7] pm_empty)).1 ≠
      [7].reverse.map Except.ok := by
  refine ⟨by decide, by decide, by decide, by decide⟩

/-- Witness for C9 (amended) with initial freelist `[1]` and pushes `[7, 8]`. -/
theorem freelist_balance_witness :
    pm_push.freelist ≠ [] ∧ ([7, 8] : List Nat).Nodup ∧
    pm_push.freelist.length + [7, 8].length ≤ METACLUSTER_SIZE / POINTER_SIZE ∧
    ((pop_seq cfg0 [7, 8].length (push_all cfg0 [7, 8] pm_push)).1 =
        [7, 8].reverse.map Except.ok ∧
     (pop_seq cfg0 [7, 8].length (push_all cfg0 [7, 8] pm_push)).2.freelist =
        pm_push.freelist) :=
  ⟨by decide, by decide, by decide,
    freelist_balance cfg0 [7, 8] pm_push (by decide) (by decide) (by decide)⟩

/-! ### Data-cluster header layout -/

/-- The `u16`-truncated checksum computed on the fitting path of
`queue_alloc` (over bytes `2..` of the padded sector). -/
def fit_digest (c : Cfg) (cluster0 : List Nat) : Nat :=
  checksum c ((cluster0 ++ List.replicate (SECTOR_SIZE - cluster0.length) 0).drop
    DATA_CLUSTER_HEADER) % 2 ^ 16

/-- The `u16`-truncated checksum computed on the non-fitting path of
`queue_alloc` (over the raw page bytes). -/
def raw_digest (c : Cfg) (buf : List Nat) : Nat :=
  checksum c buf % 2 ^ 16

theorem byte_shift_or_one :
    ∀ y < 256, ((y * 2) % 256 ||| 1) % 2 = 1 ∧ ((y * 2) % 256 ||| 1) / 2 = y % 128 := by
  decide

theorem byte_shift :
    ∀ y < 256, ((y * 2) % 256) % 2 = 0 ∧ ((y * 2) % 256) / 2 = y % 128 := by
  decide

theorem cluster_fit_eq (c : Cfg) (cluster0 : List Nat) :
    cluster_fit c cluster0 =
      fit_digest c cluster0 % 256 ::
        ((fit_digest c cluster0 / 256 % 256 * 2) % 256 ||| 1) ::
        (cluster0 ++ List.replicate (SECTOR_SIZE - cluster0.length) 0).drop 2 := by
  simp [cluster_fit, fit_digest, writeAt, leBytes, DATA_CLUSTER_HEADER]

theorem cluster_no_fit_eq (c : Cfg) (buf : List Nat) :
    cluster_no_fit c buf =
      raw_digest c buf % 256 :: ((raw_digest c buf / 256 % 256 * 2) % 256) :: buf := by
  simp [cluster_no_fit, raw_digest, writeAt, leBytes, DATA_CLUSTER_HEADER]

/-- C6 counterexample: on the fitting (compressed) path with the constant-zero
checksum, the data cluster written by `queue_alloc` has bit 0 of its 2-byte
little-endian header equal to 0, not to the compression flag 1: the source
sets the flag in byte 1, i.e. at bit 8 of the header. -/
theorem data_cluster_header_claim_counterexample :
    (queue_alloc cfg0 [1] pm_alloc).2.state_queued = [(4, cluster_fit cfg0 [0, 0, 1])] ∧
    leRead (cluster_fit cfg0 [0, 0, 1]) 0 2 % 2 ≠ 1 := by
  refine ⟨by decide, by decide⟩

/-- C6 (amended): in every data cluster built by `queue_alloc`, byte 0 of the
2-byte header holds the low 8 bits of the `u16`-truncated checksum of the
payload; byte 1 holds the compression flag in its bit 0 (1 on the fitting
path, 0 on the raw path) and bits `8..15` of the truncated checksum in its
bits `1..8` (bit 15 of the truncated checksum is discarded by the `u8` shift);
the fitting-path cluster goes to the `state_queued` sink and the raw cluster
is queued on the pipeline for the freshly popped cluster. -/
theorem data_cluster_header_layout (c : Cfg) (buf : List Nat) (m : PM) :
    (([0, 0] ++ compress c m.state_block.compression_algorithm
        (m.last_cluster_data ++ buf)).length ≤ SECTOR_SIZE →
      (queue_alloc c buf m).2.state_queued =
        m.state_queued ++ [(m.last_cluster,
          cluster_fit c ([0, 0] ++ compress c m.state_block.compression_algorithm
            (m.last_cluster_data ++ buf)))]) ∧
    (∀ cluster0 : List Nat,
      (cluster_fit c cluster0).getD 0 0 = fit_digest c cluster0 % 256 ∧
      (cluster_fit c cluster0).getD 1 0 % 2 = 1 ∧
      (cluster_fit c cluster0).getD 1 0 / 2 = fit_digest c cluster0 / 256 % 128) ∧
    ((cluster_no_fit c buf).getD 0 0 = raw_digest c buf % 256 ∧
     (cluster_no_fit c buf).getD 1 0 % 2 = 0 ∧
     (cluster_no_fit c buf).getD 1 0 / 2 = raw_digest c buf / 256 % 128) ∧
    (∀ p m2, queue_freelist_pop c { m with last_cluster_data := buf } = (.ok p, m2) →
      SECTOR_SIZE < ([0, 0] ++ compress c m.state_block.compression_algorithm
        (m.last_cluster_data ++ buf)).length →
      queue_alloc c buf m = (.ok none,
        { m2 with last_cluster := p,
                  pipeline := m2.pipeline ++ [(p, cluster_no_fit c buf)] })) := by
  refine ⟨?_, ?_, ?_, ?_⟩
  · intro h
    simp only [queue_alloc]
    rw [if_pos h]
  · intro cluster0
    rw [cluster_fit_eq]
    have hy : fit_digest c cluster0 / 256 % 256 < 256 := Nat.mod_lt _ (by norm_num)
    have hb := byte_shift_or_one (fit_digest c cluster0 / 256 % 256) hy
    refine ⟨by simp, ?_, ?_⟩
    · simp only [List.getD_cons_succ, List.getD_cons_zero]
      exact hb.1
    · have := hb.2
      simp only [List.getD_cons_succ, List.getD_cons_zero]
      rw [this, Nat.mod_mod_of_dvd _ (by norm_num : (128 : Nat) ∣ 256)]
  · rw [cluster_no_fit_eq]
    have hy : raw_digest c buf / 256 % 256 < 256 := Nat.mod_lt _ (by norm_num)
    have hb := byte_shift (raw_digest c buf / 256 % 256) hy
    refine ⟨by simp, ?_, ?_⟩
    · simpa using hb.1
    · have := hb.2
      simp only [List.getD_cons_succ, List.getD_cons_zero]
      rw [this, Nat.mod_mod_of_dvd _ (by norm_num : (128 : Nat) ∣ 256)]
  · intro p m2 hpop hgt
    simp only [queue_alloc]
    rw [if_neg (Nat.not_le.mpr hgt), hpop]

/-- Witness for C6 (amended) on the fitting path at a concrete input. -/
theorem data_cluster_header_layout_witness :
    (([0, 0] ++ compress cfg0 pm_alloc.state_block.compression_algorithm
        (pm_alloc.last_cluster_data ++ [1])).length ≤ SECTOR_SIZE) ∧
    ((queue_alloc cfg0 [1] pm_alloc).2.state_queued =
      pm_alloc.state_queued ++ [(pm_alloc.last_cluster,
        cluster_fit cfg0 ([0, 0] ++ compress cfg0 pm_alloc.state_block.compression_algorithm
          (pm_alloc.last_cluster_data ++ [1])))]) ∧
    ((cluster_fit cfg0 [0, 0, 1]).getD 1 0 % 2 = 1) :=
  ⟨by decide, (data_cluster_header_layout cfg0 [1] pm_alloc).1 (by decide),
    ((data_cluster_header_layout cfg0 [1] pm_alloc).2.1 [0, 0, 1]).2.1⟩

/-- C1: exercised on the fitting path at a concrete input, `queue_alloc`
completes without producing a page pointer (the source returns `()` despite
its `Result<Pointer, Error>` signature) and the cluster write never reaches
the manager's transactional pipeline — it goes through `self.state.queue`,
which does not exist on `State` (recorded in the separate `state_queued`
sink).  This documents the source bug that the claim (the spec §9 mandate)
rules out. -/
theorem queue_alloc_fitting_path_bug :
    (queue_alloc cfg0 [1] pm_alloc).1 = .ok none ∧
    (queue_alloc cfg0 [1] pm_alloc).2.pipeline = pm_alloc.pipeline ∧
    (queue_alloc cfg0 [1] pm_alloc).2.state_queued =
      [(pm_alloc.last_cluster, cluster_fit cfg0 [0, 0, 1])] := by
  refine ⟨by decide, by decide, by decide⟩

/-- C5: the freelist-head flush at freelist `[3]` under the buffer-length
checksum.  The source writes pointer 3 at byte offset
`POINTER_SIZE * 3 + METACLUSTER_HEADER = 32` (it indexes by the pointer
*value*, not the slot index), leaving the first pointer slot (byte 8) zero,
and it stores at bytes `0..8` the digest of bytes `2..` of the pre-checksum
buffer (length 510) rather than the digest of bytes `8..SECTOR` of the final
sector (length 504). -/
theorem freelist_head_flush_layout_bug :
    (queue_freelist_head_flush cfgLen pm_meta).pipeline =
      [(pm_meta.state_block.freelist_head, metacluster_buf cfgLen [3])] ∧
    (metacluster_buf cfgLen [3]).getD METACLUSTER_HEADER 0 = 0 ∧
    (metacluster_buf cfgLen [3]).getD (POINTER_SIZE * 3 + METACLUSTER_HEADER) 0 = 3 ∧
    leRead (metacluster_buf cfgLen [3]) 0 8 = 510 ∧
    digest cfgLen.hash ((metacluster_buf cfgLen [3]).drop METACLUSTER_HEADER) = 504 := by
  refine ⟨by decide, by decide, by decide, by decide, by decide⟩

end Tfs
